import Mathlib

/-!
Verification development for the react-native-sqlite-mcp server.

The definitions below are shallow embeddings of the TypeScript sources:
`src/locator.ts` (discovery and sync), `src/db.ts` (connection cache and
query service) and `src/index.ts` (tool handlers).  External commands
(`adb`, `find`, `ls`) are modelled by explicit data describing the remote
and host file systems; timers are modelled by logical millisecond
timestamps.  All definitions are executable.
-/

namespace RNSqlite

/-! ### Glob selection (locator.ts, syncDatabase lines 170-173) -/

/-- Tokens of the anchored pattern the code builds in `syncDatabase`
(locator.ts line 171): the selector string has every star replaced by the
regex fragment matching any sequence and is anchored on both sides; the
remaining characters keep their regex meaning.  In the fragment modelled
here — selectors made of stars, dots and regex-literal characters — a dot
matches any single character and every other character only itself. -/
inductive GTok
  | anySeq
  | anyChar
  | lit (c : Char)
deriving DecidableEq

/-- Translation of one selector character as performed by the code's
star-to-dot-star replacement read through a regex engine: a star becomes
match-any-sequence, a dot stays a regex any-character, anything else is a
literal. -/
def globToken (c : Char) : GTok :=
  if c = '*' then GTok.anySeq else if c = '.' then GTok.anyChar else GTok.lit c

def translateGlob (g : String) : List GTok := g.toList.map globToken

/-- Backtracking matcher for the anchored token pattern.  The fuel argument
is a step budget; every call strictly decreases the lexicographic pair of
remaining characters and remaining tokens, so a budget of
(chars + 1) * (tokens + 1) dominates the length of every call path and the
zero-fuel branch is never taken for the budgets used below. -/
def tokMatchF : Nat → List GTok → List Char → Bool
  | 0, _, _ => false
  | Nat.succ n, ts, cs =>
    match ts, cs with
    | [], [] => true
    | [], _ :: _ => false
    | GTok.anySeq :: ts', [] => tokMatchF n ts' []
    | GTok.anySeq :: ts', c :: cs' =>
        tokMatchF n ts' (c :: cs') || tokMatchF n (GTok.anySeq :: ts') cs'
    | GTok.anyChar :: _, [] => false
    | GTok.anyChar :: ts', _ :: cs' => tokMatchF n ts' cs'
    | GTok.lit _ :: _, [] => false
    | GTok.lit a :: ts', c :: cs' => a == c && tokMatchF n ts' cs'

/-- globRegex.test(name) of locator.ts line 172, for the code's translation
of the selector. -/
def globMatch (g name : String) : Bool :=
  tokMatchF ((name.length + 1) * (g.length + 1)) (translateGlob g) name.toList

/-- loc.databases.filter(name => globRegex.test(name)) of locator.ts
line 172. -/
def selectGlob (databases : List String) (g : String) : List String :=
  databases.filter (fun n => globMatch g n)

/-- Modelled from the spec: the spec asserts the translation escapes literal
characters, so every non-star character, including a dot, matches only
itself. -/
def specGlobToken (c : Char) : GTok :=
  if c = '*' then GTok.anySeq else GTok.lit c

/-- Matcher for the spec's escaped translation of the selector. -/
def specGlobMatch (g name : String) : Bool :=
  tokMatchF ((name.length + 1) * (g.length + 1)) (g.toList.map specGlobToken) name.toList

/-- Claim C1, counterexample: the code never escapes literal characters, so
the dot of the selector "a.db" matches any character and sync selects the
discovered name "axdb", which the claim's escaped translation rejects. -/
theorem C1_cex :
    selectGlob ["axdb"] "a.db" = ["axdb"] ∧ specGlobMatch "a.db" "axdb" = false := by
  exact ⟨by decide, by decide⟩

/-- Claim C1, amended: sync selects exactly the discovered names matching
the anchored pattern obtained by mapping the star to match-any-sequence and
keeping every other character with its regex meaning (no escaping; a dot
matches any single character).  On the spec's example the outcome agrees:
discovered a.db, a.sqlite, b.db with selector "a.*" selects a.db and
a.sqlite. -/
theorem C1_glob :
    (∀ (dbs : List String) (g n : String),
        n ∈ selectGlob dbs g ↔ n ∈ dbs ∧ globMatch g n = true) ∧
    selectGlob ["a.db", "a.sqlite", "b.db"] "a.*" = ["a.db", "a.sqlite"] := by
  constructor
  · intro dbs g n
    simp [selectGlob, List.mem_filter]
  · decide

/-! ### READ_ONLY guard (index.ts, query_db handler lines 339-344) -/

/-- ASCII upper-casing of one character: the fragment of the JS
toUpperCase call the READ_ONLY guard relies on. -/
def asciiUpper (c : Char) : Char :=
  if 97 ≤ c.toNat ∧ c.toNat ≤ 122 then Char.ofNat (c.toNat - 32) else c

/-- ASCII whitespace as used for trimming and keyword boundaries. -/
def isWsChar (c : Char) : Bool := c == ' ' || c == '\t' || c == '\n' || c == '\r'

/-- JS String.prototype.trim over the ASCII whitespace fragment. -/
def jsTrim (l : List Char) : List Char :=
  ((l.dropWhile isWsChar).reverse.dropWhile isWsChar).reverse

/-- sql.trim().toUpperCase() of index.ts line 340. -/
def normalizeSql (sql : String) : List Char := (jsTrim sql.toList).map asciiUpper

/-- The three startsWith tests of index.ts line 341. -/
def readOnlyAllowed (sql : String) : Bool :=
  "SELECT".toList.isPrefixOf (normalizeSql sql) ||
  "PRAGMA".toList.isPrefixOf (normalizeSql sql) ||
  "EXPLAIN".toList.isPrefixOf (normalizeSql sql)

inductive GuardOutcome
  | rejected
  | executed
deriving DecidableEq

/-- READ_ONLY guard of the query_db handler (index.ts lines 339-346): when
the flag is set and the normalized statement does not begin with an
allow-listed keyword, the handler throws before queryDb runs; otherwise the
statement reaches queryDb and is executed. -/
def queryGuard (readOnlyFlag : Bool) (sql : String) : GuardOutcome :=
  if readOnlyFlag && !(readOnlyAllowed sql) then GuardOutcome.rejected
  else GuardOutcome.executed

/-- Leading keyword of a normalized statement: the maximal run of
non-whitespace characters at the front. -/
def leadingKeyword (sql : String) : List Char :=
  (normalizeSql sql).takeWhile (fun c => !(isWsChar c))

theorem keyword_isPrefix (sql : String) (kw : List Char)
    (h : leadingKeyword sql = kw) : kw.isPrefixOf (normalizeSql sql) = true := by
  subst h
  exact List.isPrefixOf_iff_prefix.mpr (List.takeWhile_prefix _)

/-- Claim C3, counterexample: the string "SELECTION 1" has normalized
leading keyword SELECTION, which is not in the allowlist, so the claim
demands rejection; the code only tests a string prefix, so the statement is
executed. -/
theorem C3_cex :
    queryGuard true "SELECTION 1" = GuardOutcome.executed ∧
    leadingKeyword "SELECTION 1" = "SELECTION".toList ∧
    (["SELECT", "PRAGMA", "EXPLAIN"] : List String).contains "SELECTION" = false := by
  exact ⟨by decide, by decide, by decide⟩

/-- Claim C3, amended: with the read-only flag active the handler executes a
statement exactly when its trimmed, upper-cased text begins with the string
SELECT, PRAGMA or EXPLAIN (a prefix test, not a keyword-token test); in
particular every statement whose leading keyword is one of the three is
executed, never rejected. -/
theorem C3_readonly :
    ∀ sql : String,
      (queryGuard true sql = GuardOutcome.executed ↔ readOnlyAllowed sql = true) ∧
      (leadingKeyword sql = "SELECT".toList ∨ leadingKeyword sql = "PRAGMA".toList ∨
          leadingKeyword sql = "EXPLAIN".toList →
        queryGuard true sql = GuardOutcome.executed) := by
  intro sql
  have hguard : queryGuard true sql = GuardOutcome.executed ↔ readOnlyAllowed sql = true := by
    unfold queryGuard
    cases h : readOnlyAllowed sql <;> simp [h]
  refine ⟨hguard, ?_⟩
  intro hkw
  have hallow : readOnlyAllowed sql = true := by
    unfold readOnlyAllowed
    rcases hkw with h | h | h
    · rw [keyword_isPrefix sql _ h]
      simp
    · rw [keyword_isPrefix sql _ h]
      simp
    · rw [keyword_isPrefix sql _ h]
      simp
  exact hguard.mpr hallow

/-- Witness for C3_readonly at the concrete statement
"PRAGMA table_info(users)". -/
theorem C3_readonly_witness :
    (leadingKeyword "PRAGMA table_info(users)" = "SELECT".toList ∨
        leadingKeyword "PRAGMA table_info(users)" = "PRAGMA".toList ∨
        leadingKeyword "PRAGMA table_info(users)" = "EXPLAIN".toList) ∧
    queryGuard true "PRAGMA table_info(users)" = GuardOutcome.executed :=
  ⟨Or.inr (Or.inl (by decide)),
    (C3_readonly "PRAGMA table_info(users)").2 (Or.inr (Or.inl (by decide)))⟩

/-! ### read_table_contents limit default (index.ts lines 307-328) -/

/-- The JS expression (args?.limit as number) || 100 of index.ts line 310:
an absent argument or the falsy number 0 yields the default 100; any other
number is used unchanged.  NaN, the only other falsy number, has no
counterpart in this integer model. -/
def effectiveLimit (limit : Option Int) : Int :=
  match limit with
  | none => 100
  | some v => if v = 0 then 100 else v

/-- SQL text built by the read_table_contents handler (index.ts line 316). -/
def readTableSql (tableName : String) : String :=
  "SELECT * FROM \"" ++ tableName ++ "\" LIMIT ?"

/-- Bind parameters passed to queryDb by the handler (index.ts line 317). -/
def readTableParams (limit : Option Int) : List Int := [effectiveLimit limit]

/-- Claim C10: a supplied limit of 0 (falsy) is replaced by the default 100
before the bounded SELECT runs, an absent limit also defaults to 100, and
any non-zero (truthy) limit is bound unchanged as the LIMIT parameter. -/
theorem C10_limit :
    effectiveLimit (some 0) = 100 ∧ effectiveLimit none = 100 ∧
    readTableSql "users" = "SELECT * FROM \"users\" LIMIT ?" ∧
    (∀ v : Int, v ≠ 0 → effectiveLimit (some v) = v ∧ readTableParams (some v) = [v]) := by
  refine ⟨rfl, rfl, rfl, ?_⟩
  intro v hv
  simp [effectiveLimit, readTableParams, hv]

/-- Witness for C10_limit at the concrete limit 7. -/
theorem C10_limit_witness :
    (7 : Int) ≠ 0 ∧ (effectiveLimit (some 7) = 7 ∧ readTableParams (some 7) = [7]) :=
  ⟨by decide, C10_limit.2.2.2 7 (by decide)⟩

/-! ### Query timeout (db.ts lines 66-99)

The race inside withTimeout is modelled with logical millisecond
timestamps relative to the start of the race: the timer rejects at `ms`,
the wrapped promise settles at `settleAt`, and whichever event is earlier
wins (an already-resolved promise settles at 0, before any timer). -/

def QUERY_TIMEOUT_MS : Nat := 30000

/-- Message of the Error built in db.ts line 71. -/
def timeoutMessage (ms : Nat) (label : String) : String :=
  "Query timed out after " ++ toString ms ++ "ms: " ++ label

/-- withTimeout of db.ts lines 68-78: the settled value wins the race iff
the promise settles no later than the timer fires. -/
def withTimeout (settleAt : Nat) (rows : List Nat) (ms : Nat) (label : String) :
    Except String (List Nat) :=
  if settleAt ≤ ms then Except.ok rows else Except.error (timeoutMessage ms label)

/-- Outcome of one queryDb call: its settled result and the wall-clock time
the whole call took. -/
structure QueryRun where
  result : Except String (List Nat)
  elapsedMs : Nat

/-- queryDb of db.ts lines 92-99: runQuery executes synchronously, taking
`execMs` of wall time, and only then is its already-available value wrapped
in Promise.resolve and handed to withTimeout with the 30s budget and the
statement truncated to 80 characters as label.  The promise given to the
race is therefore already settled (settleAt = 0) whatever `execMs` was. -/
def queryDb (execMs : Nat) (sql : String) (rows : List Nat) : QueryRun :=
  { result := withTimeout 0 rows QUERY_TIMEOUT_MS (sql.take 80)
    elapsedMs := execMs }

/-- Claim C2 (code bug): the 30-second budget is dead code in queryDb.  A
statement whose synchronous execution takes 40 seconds still settles
successfully after the full 40 seconds — in general every call returns its
rows after exactly its execution time, whatever that is — even though
withTimeout itself would report a timeout for a promise that settles after
the budget. -/
theorem C2_timeout_dead :
    (queryDb 40000 "SELECT * FROM big" [1, 2]).result = Except.ok [1, 2] ∧
    (queryDb 40000 "SELECT * FROM big" [1, 2]).elapsedMs = 40000 ∧
    QUERY_TIMEOUT_MS < 40000 ∧
    (∀ (execMs : Nat) (sql : String) (rows : List Nat),
        (queryDb execMs sql rows).result = Except.ok rows ∧
        (queryDb execMs sql rows).elapsedMs = execMs) ∧
    withTimeout 40000 [1, 2] QUERY_TIMEOUT_MS "SELECT * FROM big" =
      Except.error (timeoutMessage QUERY_TIMEOUT_MS "SELECT * FROM big") := by
  refine ⟨rfl, rfl, by decide, ?_, rfl⟩
  intro execMs sql rows
  exact ⟨rfl, rfl⟩

/-! ### Connection cache (db.ts lines 15-56)

One cache slot (the per-path entry of connectionCache) is modelled with
logical millisecond timestamps.  The scheduled eviction timer is recorded
as its expiry instant; clearTimeout is modelled by overwriting that expiry,
and a pending timer whose expiry has been reached runs before any later
acquire, which is the single-threaded event-loop ordering. -/

def CACHE_TTL_MS : Nat := 60000

/-- State of one connectionCache entry: the open handle and its timer
expiry if present, the next fresh handle id, and the ids that have been
close()d so far (most recent first). -/
structure CacheState where
  conn : Option (Nat × Nat)
  nextId : Nat
  closed : List Nat
deriving DecidableEq

def initCache : CacheState := { conn := none, nextId := 0, closed := [] }

/-- evictConnection of db.ts lines 45-56: a missing entry is a no-op;
otherwise the entry is removed from the map first and the handle closed
after. -/
def evictConnection (s : CacheState) : CacheState :=
  match s.conn with
  | none => s
  | some (h, _) => { conn := none, nextId := s.nextId, closed := h :: s.closed }

/-- Runs the pending idle timer if its expiry has been reached by time t;
a cleared or reset timer never fires because its expiry was overwritten. -/
def fireDue (s : CacheState) (t : Nat) : CacheState :=
  match s.conn with
  | some (_, e) => if e ≤ t then evictConnection s else s
  | none => s

/-- Branching body of getCachedDb (db.ts lines 26-42), applied after any
due timer has run: an existing entry has its timer reset to t + 60s and its
handle returned; otherwise a fresh handle is opened and registered with a
fresh timer. -/
def openOrReuse (s : CacheState) (t : Nat) : CacheState × Nat :=
  match s.conn with
  | some (h, _) => ({ s with conn := some (h, t + CACHE_TTL_MS) }, h)
  | none => (⟨some (s.nextId, t + CACHE_TTL_MS), s.nextId + 1, s.closed⟩, s.nextId)

/-- getCachedDb of db.ts lines 25-43 observed at time t: any eviction due
by t has already run before the call body executes (single-threaded event
loop), then the entry is reused or freshly opened. -/
def acquire (s : CacheState) (t : Nat) : CacheState × Nat :=
  openOrReuse (fireDue s t) t

/-- Claim C8: two acquires separated by less than 60s of inactivity return
the identical handle (the second resets the idle timer); an acquire 60s or
more after the last activity gets a new handle, and the prior handle has by
then been closed exactly once. -/
theorem C8_cache (t1 t2 t3 : Nat) (_h12 : t1 ≤ t2) (hlt : t2 < t1 + CACHE_TTL_MS)
    (h23 : t2 + CACHE_TTL_MS ≤ t3) :
    let r1 := acquire initCache t1
    let r2 := acquire r1.1 t2
    let r3 := acquire r2.1 t3
    r2.2 = r1.2 ∧ r3.2 ≠ r1.2 ∧ r3.1.closed.count r1.2 = 1 := by
  have e1 : acquire initCache t1 =
      ((⟨some (0, t1 + CACHE_TTL_MS), 1, []⟩ : CacheState), 0) := rfl
  have hf2 : fireDue (⟨some (0, t1 + CACHE_TTL_MS), 1, []⟩ : CacheState) t2 =
      (⟨some (0, t1 + CACHE_TTL_MS), 1, []⟩ : CacheState) := by
    simp only [fireDue]
    rw [if_neg (by omega)]
  have e2 : acquire (⟨some (0, t1 + CACHE_TTL_MS), 1, []⟩ : CacheState) t2 =
      ((⟨some (0, t2 + CACHE_TTL_MS), 1, []⟩ : CacheState), 0) := by
    unfold acquire
    rw [hf2]
    rfl
  have hf3 : fireDue (⟨some (0, t2 + CACHE_TTL_MS), 1, []⟩ : CacheState) t3 =
      (⟨none, 1, [0]⟩ : CacheState) := by
    simp only [fireDue]
    rw [if_pos (by omega)]
    rfl
  have e3 : acquire (⟨some (0, t2 + CACHE_TTL_MS), 1, []⟩ : CacheState) t3 =
      ((⟨some (1, t3 + CACHE_TTL_MS), 2, [0]⟩ : CacheState), 1) := by
    unfold acquire
    rw [hf3]
    rfl
  simp only [e1, e2, e3]
  exact ⟨trivial, by decide, by decide⟩

/-- Witness for C8_cache at t1 = 0, t2 = 1000, t3 = 61000. -/
theorem C8_cache_witness :
    let r1 := acquire initCache 0
    let r2 := acquire r1.1 1000
    let r3 := acquire r2.1 61000
    r2.2 = r1.2 ∧ r3.2 ≠ r1.2 ∧ r3.1.closed.count r1.2 = 1 :=
  C8_cache 0 1000 61000 (by decide) (by decide) (by decide)

/-- Observable cache events: an acquire at time t, or the event loop
reaching time t and running any due timer. -/
inductive CacheEvent
  | acq (t : Nat)
  | tick (t : Nat)

def cacheStep (s : CacheState) : CacheEvent → CacheState
  | CacheEvent.acq t => (acquire s t).1
  | CacheEvent.tick t => fireDue s t

def cacheRun (evs : List CacheEvent) : CacheState :=
  evs.foldl cacheStep initCache

/-- Cache safety invariant: the cached handle was never closed, and both
the cached handle and every closed handle predate the fresh-id counter. -/
def cacheInv (s : CacheState) : Prop :=
  (∀ h e, s.conn = some (h, e) → h < s.nextId ∧ h ∉ s.closed) ∧
  ∀ c ∈ s.closed, c < s.nextId

theorem cacheInv_init : cacheInv initCache := by
  constructor
  · intro h e hc
    simp [initCache] at hc
  · intro c hc
    simp [initCache] at hc

theorem cacheInv_evict (s : CacheState) (hs : cacheInv s) :
    cacheInv (evictConnection s) := by
  obtain ⟨hconn, hclosed⟩ := hs
  unfold evictConnection
  cases hc : s.conn with
  | none => exact ⟨hconn, hclosed⟩
  | some he =>
    obtain ⟨h, e⟩ := he
    refine ⟨?_, ?_⟩
    · intro h' e' hmem
      simp at hmem
    · intro c hcmem
      simp at hcmem
      rcases hcmem with rfl | hcmem
      · exact (hconn c e hc).1
      · exact hclosed c hcmem

theorem cacheInv_fireDue (s : CacheState) (t : Nat) (hs : cacheInv s) :
    cacheInv (fireDue s t) := by
  unfold fireDue
  cases hc : s.conn with
  | none => exact hs
  | some he =>
    obtain ⟨h, e⟩ := he
    by_cases hle : e ≤ t
    · simpa [hle] using cacheInv_evict s hs
    · simpa [hle] using hs

theorem cacheInv_openOrReuse (s : CacheState) (t : Nat) (hs : cacheInv s) :
    cacheInv (openOrReuse s t).1 := by
  obtain ⟨hconn, hclosed⟩ := hs
  cases hc : s.conn with
  | some he =>
    obtain ⟨h, e⟩ := he
    simp only [openOrReuse, hc]
    refine ⟨?_, hclosed⟩
    intro h' e' hmem
    simp only [Option.some.injEq, Prod.mk.injEq] at hmem
    obtain ⟨rfl, _⟩ := hmem
    exact hconn h e hc
  | none =>
    simp only [openOrReuse, hc]
    refine ⟨?_, ?_⟩
    · intro h' e' hmem
      simp only [Option.some.injEq, Prod.mk.injEq] at hmem
      obtain ⟨rfl, _⟩ := hmem
      refine ⟨Nat.lt_succ_self _, ?_⟩
      intro habs
      exact absurd (hclosed _ habs) (Nat.lt_irrefl _)
    · intro c hcmem
      exact Nat.lt_succ_of_lt (hclosed c hcmem)

theorem cacheInv_acquire (s : CacheState) (t : Nat) (hs : cacheInv s) :
    cacheInv (acquire s t).1 :=
  cacheInv_openOrReuse (fireDue s t) t (cacheInv_fireDue s t hs)

theorem cacheInv_step (s : CacheState) (ev : CacheEvent) (hs : cacheInv s) :
    cacheInv (cacheStep s ev) := by
  cases ev with
  | acq t => exact cacheInv_acquire s t hs
  | tick t => exact cacheInv_fireDue s t hs

theorem cacheInv_run (evs : List CacheEvent) : cacheInv (cacheRun evs) := by
  suffices hgen : ∀ s, cacheInv s → cacheInv (evs.foldl cacheStep s) from
    hgen initCache cacheInv_init
  induction evs with
  | nil => intro s hs; exact hs
  | cons ev rest ih =>
    intro s hs
    exact ih (cacheStep s ev) (cacheInv_step s ev hs)

/-- Claim C9: eviction removes the cache entry before closing the handle
(the post-eviction state never retains a connection), so an acquire
scheduled after an eviction — or racing one, in event-loop order — never
receives a handle that has been closed: whatever events happened before,
the handle an acquire returns is absent from the closed list. -/
theorem openOrReuse_handle_fresh (s : CacheState) (t : Nat) (hs : cacheInv s) :
    (openOrReuse s t).2 ∉ (openOrReuse s t).1.closed := by
  obtain ⟨hconn, hclosed⟩ := hs
  cases hc : s.conn with
  | some he =>
    obtain ⟨h, e⟩ := he
    simp only [openOrReuse, hc]
    exact (hconn h e hc).2
  | none =>
    simp only [openOrReuse, hc]
    intro habs
    exact absurd (hclosed _ habs) (Nat.lt_irrefl _)

theorem C9_acquire_safe :
    (∀ s : CacheState, (evictConnection s).conn = none ∨ evictConnection s = s) ∧
    ∀ (evs : List CacheEvent) (t : Nat),
      ((acquire (cacheRun evs) t).1.closed.contains (acquire (cacheRun evs) t).2) = false := by
  constructor
  · intro s
    unfold evictConnection
    cases s.conn with
    | none => exact Or.inr rfl
    | some he => exact Or.inl rfl
  · intro evs t
    have hfresh : (acquire (cacheRun evs) t).2 ∉ (acquire (cacheRun evs) t).1.closed :=
      openOrReuse_handle_fresh (fireDue (cacheRun evs) t) t
        (cacheInv_fireDue (cacheRun evs) t (cacheInv_run evs))
    simpa using hfresh

/-! ### File systems and sync staging (locator.ts, syncDatabase lines 175-247)

The host file system is a list of (path, size) pairs, most recent write
first; the emulator's file system is the same shape.  fs.existsSync and
fs.statSync().size read the first entry for a path. -/

structure HostFS where
  files : List (String × Nat)
deriving DecidableEq

/-- fs.existsSync. -/
def existsSync (fs : HostFS) (p : String) : Bool :=
  (fs.files.find? (fun e => e.1 == p)).isSome

/-- fs.statSync(p).size, 0 when the file is absent. -/
def statSize (fs : HostFS) (p : String) : Nat :=
  match fs.files.find? (fun e => e.1 == p) with
  | some e => e.2
  | none => 0

/-- Writing (or overwriting) a file. -/
def setFile (fs : HostFS) (p : String) (sz : Nat) : HostFS :=
  ⟨(p, sz) :: fs.files⟩

/-- fs.unlinkSync folded with the existence check around it. -/
def removeLocal (fs : HostFS) (p : String) : HostFS :=
  ⟨fs.files.filter (fun e => !(e.1 == p))⟩

structure RemoteFS where
  files : List (String × Nat)
deriving DecidableEq

def remoteSize (r : RemoteFS) (p : String) : Option Nat :=
  (r.files.find? (fun e => e.1 == p)).map (fun e => e.2)

inductive Platform
  | ios
  | android
deriving DecidableEq

/-- The records syncDatabase returns (locator.ts line 144). -/
structure Synced where
  localPath : String
  dbName : String
  platform : Platform
deriving DecidableEq

/-- Last path component, as path.basename. -/
def basenameChars (l : List Char) : List Char :=
  l.foldl (fun acc c => if c = '/' then [] else acc ++ [c]) []

def basename (p : String) : String := String.mk (basenameChars p.toList)

/-- One run of the find command of locator.ts line 183: the first regular
file under appDir whose basename is the requested name, or the empty string
when there is none. -/
def findFirst (fs : HostFS) (appDir name : String) : String :=
  match fs.files.find? (fun e =>
      (appDir ++ "/").toList.isPrefixOf e.1.toList && basename e.1 == name) with
  | some e => e.1
  | none => ""

/-- The iOS branch of syncDatabase (locator.ts lines 179-194): resolve the
exact path of the matched name under appDir and push it when the find
produced something and the path exists; no size check is made. -/
def iosLocate (fs : HostFS) (appDir name : String) : List Synced :=
  if findFirst fs appDir name ≠ "" ∧ existsSync fs (findFirst fs appDir name)
  then [⟨findFirst fs appDir name, name, Platform.ios⟩] else []

/-- targetDbName.replace of locator.ts line 211: every slash becomes an
underscore. -/
def safeLocalName (s : String) : String :=
  String.mk (s.toList.map (fun c => if c = '/' then '_' else c))

/-- pullOne of locator.ts lines 221-235: privileged-copy the remote file to
an intermediate, pull it to the local path, and report success iff the
local file now exists and is non-empty.  A missing/unreadable remote file
or a failed transfer (`transferOk = false`) takes the catch branch, which
unlinks any partial local file and reports failure. -/
def pullOne (r : RemoteFS) (host : HostFS) (remote localPath : String)
    (transferOk : Bool) : HostFS × Bool :=
  match remoteSize r remote, transferOk with
  | some sz, true => (setFile host localPath sz, decide (0 < sz))
  | _, _ => (removeLocal host localPath, false)

/-- The Android staging of one matched name (locator.ts lines 210-246):
pull the main file into a fresh staging directory; on failure skip this
database; on success best-effort pull the -wal and -shm sidecars and push
the synced record. -/
def androidStageOne (r : RemoteFS) (host : HostFS) (dbDir name tmpdir : String)
    (okMain okWal okShm : Bool) : HostFS × Option Synced :=
  let localDb := tmpdir ++ "/" ++ safeLocalName name
  let remoteMain := dbDir ++ "/" ++ name
  let st1 := pullOne r host remoteMain localDb okMain
  if st1.2 then
    let st2 := pullOne r st1.1 (remoteMain ++ "-wal") (localDb ++ "-wal") okWal
    let st3 := pullOne r st2.1 (remoteMain ++ "-shm") (localDb ++ "-shm") okShm
    (st3.1, some ⟨localDb, name, Platform.android⟩)
  else (st1.1, none)

theorem find?_frame (files : List (String × Nat)) (p q : String) (sz : Nat)
    (hne : q ≠ p) :
    ((p, sz) :: files).find? (fun e => e.1 == q) = files.find? (fun e => e.1 == q) := by
  have : ((p, sz).1 == q) = false := by
    simp only [beq_eq_false_iff_ne]
    exact fun habs => hne habs.symm
  simp [List.find?, this]

theorem statSize_setFile_self (fs : HostFS) (p : String) (sz : Nat) :
    statSize (setFile fs p sz) p = sz := by
  simp [statSize, setFile, List.find?]

theorem statSize_setFile_other (fs : HostFS) (p q : String) (sz : Nat) (hne : q ≠ p) :
    statSize (setFile fs p sz) q = statSize fs q := by
  simp only [statSize, setFile]
  rw [find?_frame fs.files p q sz hne]

theorem existsSync_setFile_self (fs : HostFS) (p : String) (sz : Nat) :
    existsSync (setFile fs p sz) p = true := by
  simp [existsSync, setFile, List.find?]

theorem find?_filter_ne (files : List (String × Nat)) (p q : String) (hne : q ≠ p) :
    (files.filter (fun e => !(e.1 == p))).find? (fun e => e.1 == q) =
      files.find? (fun e => e.1 == q) := by
  induction files with
  | nil => rfl
  | cons a rest ih =>
    by_cases hap : a.1 = p
    · have h1 : (a.1 == p) = true := by simpa using hap
      have h2 : (a.1 == q) = false := by
        simp only [beq_eq_false_iff_ne]
        intro habs
        exact hne (habs ▸ hap)
      simp [List.filter, List.find?, h1, h2, ih]
    · have h1 : (a.1 == p) = false := by simpa using hap
      by_cases haq : a.1 = q
      · have h2 : (a.1 == q) = true := by simpa using haq
        simp [List.filter, List.find?, h1, h2]
      · have h2 : (a.1 == q) = false := by simpa using haq
        simp [List.filter, List.find?, h1, h2, ih]

theorem statSize_removeLocal_other (fs : HostFS) (p q : String) (hne : q ≠ p) :
    statSize (removeLocal fs p) q = statSize fs q := by
  simp only [statSize, removeLocal]
  rw [find?_filter_ne fs.files p q hne]

theorem existsSync_removeLocal_other (fs : HostFS) (p q : String) (hne : q ≠ p) :
    existsSync (removeLocal fs p) q = existsSync fs q := by
  simp only [existsSync, removeLocal]
  rw [find?_filter_ne fs.files p q hne]

theorem pullOne_frame (r : RemoteFS) (host : HostFS) (remote localPath q : String)
    (ok : Bool) (hne : q ≠ localPath) :
    statSize (pullOne r host remote localPath ok).1 q = statSize host q ∧
    existsSync (pullOne r host remote localPath ok).1 q = existsSync host q := by
  unfold pullOne
  cases hrs : remoteSize r remote with
  | some sz =>
    cases ok with
    | true =>
      refine ⟨statSize_setFile_other host localPath q sz hne, ?_⟩
      simp only [existsSync, setFile]
      rw [find?_frame host.files localPath q sz hne]
    | false =>
      exact ⟨statSize_removeLocal_other host localPath q hne,
        existsSync_removeLocal_other host localPath q hne⟩
  | none =>
    cases ok with
    | true =>
      exact ⟨statSize_removeLocal_other host localPath q hne,
        existsSync_removeLocal_other host localPath q hne⟩
    | false =>
      exact ⟨statSize_removeLocal_other host localPath q hne,
        existsSync_removeLocal_other host localPath q hne⟩

theorem pullOne_ok (r : RemoteFS) (host : HostFS) (remote localPath : String)
    (ok : Bool) (hok : (pullOne r host remote localPath ok).2 = true) :
    existsSync (pullOne r host remote localPath ok).1 localPath = true ∧
    0 < statSize (pullOne r host remote localPath ok).1 localPath := by
  unfold pullOne at hok ⊢
  cases hrs : remoteSize r remote with
  | some sz =>
    cases ok with
    | true =>
      simp only [hrs] at hok ⊢
      have hsz : 0 < sz := by simpa using hok
      refine ⟨existsSync_setFile_self host localPath sz, ?_⟩
      rw [statSize_setFile_self host localPath sz]
      exact hsz
    | false => simp [hrs] at hok
  | none =>
    cases ok with
    | true => simp [hrs] at hok
    | false => simp [hrs] at hok

theorem append_ne_self (s t : String) (ht : t ≠ "") : s ++ t ≠ s := by
  intro habs
  apply ht
  have hlen : (s ++ t).length = s.length := by rw [habs]
  rw [String.length_append] at hlen
  have : t.length = 0 := by omega
  cases t with
  | mk data =>
    cases data with
    | nil => rfl
    | cons c cs => simp [String.length] at this

/-- Claim C4, counterexample: the iOS branch only checks existence, so a
located simulator database of size zero is returned as a SyncedDatabase
whose localPath references an empty file. -/
theorem C4_cex :
    iosLocate (⟨[("/sandbox/App/app.db", 0)]⟩ : HostFS) "/sandbox/App" "app.db" =
      [⟨"/sandbox/App/app.db", "app.db", Platform.ios⟩] ∧
    statSize (⟨[("/sandbox/App/app.db", 0)]⟩ : HostFS) "/sandbox/App/app.db" = 0 := by
  exact ⟨by decide, by decide⟩

/-- Claim C4, amended: an Android entry returned by the staging step always
references a file that exists and is non-empty when the staging of that
database finishes (the main pull verifies size and the sidecar pulls touch
only the -wal and -shm paths); an iOS entry references a file that exists, but
its size is not checked and may be zero. -/
theorem C4_sync :
    (∀ (r : RemoteFS) (host : HostFS) (dbDir name tmpdir : String)
        (okMain okWal okShm : Bool) (e : Synced),
      (androidStageOne r host dbDir name tmpdir okMain okWal okShm).2 = some e →
        existsSync (androidStageOne r host dbDir name tmpdir okMain okWal okShm).1
            e.localPath = true ∧
        0 < statSize (androidStageOne r host dbDir name tmpdir okMain okWal okShm).1
            e.localPath) ∧
    (∀ (fs : HostFS) (appDir name : String) (e : Synced),
      e ∈ iosLocate fs appDir name → existsSync fs e.localPath = true) := by
  constructor
  · intro r host dbDir name tmpdir okMain okWal okShm e hsome
    unfold androidStageOne at hsome ⊢
    by_cases hmain :
        (pullOne r host (dbDir ++ "/" ++ name) (tmpdir ++ "/" ++ safeLocalName name)
          okMain).2 = true
    · simp only [hmain, if_true] at hsome ⊢
      obtain rfl : e = ⟨tmpdir ++ "/" ++ safeLocalName name, name, Platform.android⟩ := by
        simpa using hsome.symm
      have hok := pullOne_ok r host (dbDir ++ "/" ++ name)
        (tmpdir ++ "/" ++ safeLocalName name) okMain hmain
      have hwal := pullOne_frame r
        (pullOne r host (dbDir ++ "/" ++ name) (tmpdir ++ "/" ++ safeLocalName name)
          okMain).1
        (dbDir ++ "/" ++ name ++ "-wal") (tmpdir ++ "/" ++ safeLocalName name ++ "-wal")
        (tmpdir ++ "/" ++ safeLocalName name) okWal
        (by
          intro habs
          exact append_ne_self (tmpdir ++ "/" ++ safeLocalName name) "-wal"
            (by decide) habs.symm)
      have hshm := pullOne_frame r
        (pullOne r
          (pullOne r host (dbDir ++ "/" ++ name) (tmpdir ++ "/" ++ safeLocalName name)
            okMain).1
          (dbDir ++ "/" ++ name ++ "-wal") (tmpdir ++ "/" ++ safeLocalName name ++ "-wal")
          okWal).1
        (dbDir ++ "/" ++ name ++ "-shm") (tmpdir ++ "/" ++ safeLocalName name ++ "-shm")
        (tmpdir ++ "/" ++ safeLocalName name) okShm
        (by
          intro habs
          exact append_ne_self (tmpdir ++ "/" ++ safeLocalName name) "-shm"
            (by decide) habs.symm)
      refine ⟨?_, ?_⟩
      · rw [hshm.2, hwal.2]
        exact hok.1
      · rw [hshm.1, hwal.1]
        exact hok.2
    · simp only [Bool.not_eq_true] at hmain
      simp [hmain] at hsome
  · intro fs appDir name e hmem
    unfold iosLocate at hmem
    split at hmem
    case isTrue hcond =>
      simp only [List.mem_singleton] at hmem
      subst hmem
      exact hcond.2
    case isFalse hcond =>
      simp at hmem

/-- Witness for C4_sync: a remote database of 5 bytes with no sidecars is
staged; and a concrete iOS location. -/
theorem C4_sync_witness :
    (existsSync (androidStageOne (⟨[("/data/user/0/p/databases/app.db", 5)]⟩ : RemoteFS)
        (⟨[]⟩ : HostFS) "/data/user/0/p" "databases/app.db" "/tmp/x" true true true).1
        "/tmp/x/databases_app.db" = true ∧
      0 < statSize (androidStageOne (⟨[("/data/user/0/p/databases/app.db", 5)]⟩ : RemoteFS)
        (⟨[]⟩ : HostFS) "/data/user/0/p" "databases/app.db" "/tmp/x" true true true).1
        "/tmp/x/databases_app.db") ∧
    existsSync (⟨[("/sandbox/App/app.db", 7)]⟩ : HostFS) "/sandbox/App/app.db" = true := by
  refine ⟨?_, ?_⟩
  · have h := C4_sync.1 (⟨[("/data/user/0/p/databases/app.db", 5)]⟩ : RemoteFS)
      (⟨[]⟩ : HostFS) "/data/user/0/p" "databases/app.db" "/tmp/x" true true true
      ⟨"/tmp/x/databases_app.db", "databases/app.db", Platform.android⟩ (by decide)
    exact h
  · exact C4_sync.2 (⟨[("/sandbox/App/app.db", 7)]⟩ : HostFS) "/sandbox/App" "app.db"
      ⟨"/sandbox/App/app.db", "app.db", Platform.ios⟩ (by decide)

/-! ### Auto-selection (locator.ts, syncDatabase lines 160-169) -/

/-- The preference predicate of locator.ts line 164, verbatim
d.endsWith('.db') || d.endsWith('.sqlite'): only those two suffixes are
preferred, although the discovery step finds three (see dbFileSuffixes). -/
def autoPreferred (d : String) : Bool :=
  ".db".toList.isSuffixOf d.toList || ".sqlite".toList.isSuffixOf d.toList

/-- Auto-selection when no selector is given (locator.ts lines 162-169):
loc.databases.find(autoPreferred) when it hits, else the first element
loc.databases[0] when the list is non-empty. -/
def autoSelect (databases : List String) : List String :=
  match databases.find? autoPreferred with
  | some p => [p]
  | none => databases.take 1

/-- The database-file suffixes of the scanner: both find commands
(locator.ts line 22 for iOS, line 89 for Android) enumerate exactly the
patterns *.db, *.sqlite and *.sqlite3, so these three are the suffixes a
discovered name can carry. -/
def dbFileSuffixes : List String := [".db", ".sqlite", ".sqlite3"]

/-- Modelled from the spec: auto-selection as the claim reads it — prefer
the first name carrying any database-file suffix (any of the three the
scanner searches for), else fall back to the first name. -/
def specAutoSelect (databases : List String) : List String :=
  match databases.find? (fun d => dbFileSuffixes.any (fun s => s.toList.isSuffixOf d.toList)) with
  | some p => [p]
  | none => databases.take 1

/-- Claim C7, counterexample: a location holding an extensionless name
first and a .sqlite3 name second — exactly the claim's scenario of a
suffixed and an extensionless candidate in one location.  The name
app.sqlite3 carries a database-file suffix (the scanner's own third search
pattern) and data carries none of the three, so the claim demands
app.sqlite3; the code's preference predicate accepts only .db and .sqlite,
its find misses, and the fallback picks the first, extensionless, name. -/
theorem C7_cex :
    autoSelect ["data", "app.sqlite3"] = ["data"] ∧
    ".sqlite3".toList.isSuffixOf "app.sqlite3".toList = true ∧
    dbFileSuffixes.any (fun s => s.toList.isSuffixOf "data".toList) = false ∧
    specAutoSelect ["data", "app.sqlite3"] = ["app.sqlite3"] := by
  exact ⟨by decide, by decide, by decide, by decide⟩

theorem find?_congr_on (l : List String) (p q : String → Bool)
    (h : ∀ d ∈ l, p d = q d) : l.find? p = l.find? q := by
  induction l with
  | nil => rfl
  | cons a rest ih =>
    have ha : p a = q a := h a (by simp)
    cases hq : q a with
    | true => simp [List.find?_cons, ha, hq]
    | false =>
      simp only [List.find?_cons, ha, hq, cond_false]
      exact ih (fun d hd => h d (by simp [hd]))

/-- Claim C7, amended: with no selector, sync picks the first discovered
name ending in .db or .sqlite; only when no name has one of those two
suffixes does it fall back to the first discovered name — so a name ending
in .sqlite3, although it carries a database-file suffix, is never preferred
and loses to an earlier extensionless name.  The divergence is confined to
.sqlite3: on any location where no discovered name ends in .sqlite3, the
code's auto-selection coincides with the claim's any-database-suffix
reading. -/
theorem C7_autoselect :
    ∀ (dbs : List String),
      (∀ d, dbs.find? autoPreferred = some d → autoSelect dbs = [d]) ∧
      (dbs.find? autoPreferred = none → autoSelect dbs = dbs.take 1) ∧
      ((∀ d ∈ dbs, ".sqlite3".toList.isSuffixOf d.toList = false) →
        autoSelect dbs = specAutoSelect dbs) := by
  intro dbs
  refine ⟨?_, ?_, ?_⟩
  · intro d hfind
    unfold autoSelect
    rw [hfind]
  · intro hnone
    unfold autoSelect
    rw [hnone]
  · intro hno
    unfold autoSelect specAutoSelect
    have hsame : dbs.find? autoPreferred =
        dbs.find? (fun d => dbFileSuffixes.any (fun s => s.toList.isSuffixOf d.toList)) := by
      apply find?_congr_on
      intro d hd
      have h3 : ['.', 's', 'q', 'l', 'i', 't', 'e', '3'].isSuffixOf d.data = false :=
        hno d hd
      simp [autoPreferred, dbFileSuffixes, h3]
    rw [← hsame]

/-- Witness for C7_autoselect: a preferred .db name winning, the
extensionless fallback, and a .sqlite3-free location where code and spec
reading agree. -/
theorem C7_autoselect_witness :
    (["main.db", "data"].find? autoPreferred = some "main.db" ∧
      autoSelect ["main.db", "data"] = ["main.db"]) ∧
    (["data", "blob"].find? autoPreferred = none ∧
      autoSelect ["data", "blob"] = ["data"]) ∧
    autoSelect ["main.db", "data"] = specAutoSelect ["main.db", "data"] :=
  ⟨⟨by decide, (C7_autoselect ["main.db", "data"]).1 "main.db" (by decide)⟩,
    ⟨by decide, (C7_autoselect ["data", "blob"]).2.1 (by decide)⟩,
    (C7_autoselect ["main.db", "data"]).2.2 (by decide)⟩

/-! ### Android discovery (locator.ts, listDatabases lines 76-132)

Each package is described by what the two conventional storage roots would
answer: whether the probing run-as ls of the root succeeds, which files the
recursive find prints (absolute paths), and which raw entries the flat ls
of the databases subdirectory prints.  A find or ls error is the same as
an empty answer (locator.ts lines 94 and 106 swallow them). -/

structure RootListing where
  probeOk : Bool
  findFiles : List String
  lsEntries : List String
deriving DecidableEq

structure PkgScan where
  pkg : String
  root0 : RootListing
  root1 : RootListing
deriving DecidableEq

/-- First conventional per-app storage root (locator.ts line 80). -/
def root0Dir (pkg : String) : String := "/data/user/0/" ++ pkg

/-- Second conventional per-app storage root (locator.ts line 80). -/
def root1Dir (pkg : String) : String := "/data/data/" ++ pkg

def dedupAux : List String → List String → List String
  | _, [] => []
  | seen, x :: xs =>
      if seen.contains x then dedupAux seen xs else x :: dedupAux (x :: seen) xs

/-- The JS spread of a Set (locator.ts line 109): first occurrences in
order. -/
def dedup (l : List String) : List String := dedupAux [] l

/-- The filter chain over the flat ls of the databases subdirectory
(locator.ts lines 98-103): drop empties, directories, journal/WAL/SHM
sidecars, and anything containing a dot. -/
def lsKeep (f : String) : Bool :=
  !(f == "") && !("/".toList.isSuffixOf f.toList) &&
  !("-journal".toList.isSuffixOf f.toList) && !("-wal".toList.isSuffixOf f.toList) &&
  !("-shm".toList.isSuffixOf f.toList) && !(f.toList.contains '.')

/-- The surviving ls entries resolved under the databases subdirectory
(locator.ts line 104). -/
def lsFilter (baseDir : String) (entries : List String) : List String :=
  (entries.filter lsKeep).map (fun f => baseDir ++ "/databases/" ++ f)

/-- Removal of the first occurrence of a pattern, the JS
String.prototype.replace with a string pattern and empty replacement
(locator.ts line 112). -/
def removeFirst (pat : List Char) : List Char → List Char
  | [] => []
  | c :: cs =>
      if pat.isPrefixOf (c :: cs) then (c :: cs).drop pat.length
      else c :: removeFirst pat cs

/-- f.replace of baseDir plus slash with the empty string (locator.ts
line 112). -/
def stripBase (baseDir f : String) : String :=
  String.mk (removeFirst (baseDir ++ "/").toList f.toList)

/-- One root of the per-package loop body (locator.ts lines 82-121): if the
probing run-as ls throws, the root contributes nothing; otherwise union the
find results and the filtered flat-ls results, de-duplicate, and when at
least one file survives answer the display names together with the
composite key of this root and package, breaking out of the root loop. -/
def scanRoot (pkg baseDir : String) (rl : RootListing) : Option (List String × String) :=
  if rl.probeOk then
    match dedup (rl.findFiles ++ lsFilter baseDir rl.lsEntries) with
    | [] => none
    | f :: fs => some ((f :: fs).map (stripBase baseDir), baseDir ++ "::" ++ pkg)
  else none

/-- The two-root loop for one package (locator.ts lines 79-121): the first
root that yields a non-empty de-duplicated file list wins; a root whose
probe fails or whose union is empty falls through to the next root. -/
def scanPkg (p : PkgScan) : Option (List String × String) :=
  match scanRoot p.pkg (root0Dir p.pkg) p.root0 with
  | some r => some r
  | none => scanRoot p.pkg (root1Dir p.pkg) p.root1

/-- DatabaseLocation of locator.ts lines 6-10. -/
structure DatabaseLocation where
  platform : Platform
  databases : List String
  appDir : Option String
deriving DecidableEq

/-- One iteration of the package loop over the accumulated name list and
the lastSuccessfulAppDir variable (locator.ts lines 111-116). -/
def scanStep (acc : List String × Option String) (p : PkgScan) : List String × Option String :=
  match scanPkg p with
  | some fr => (acc.1 ++ fr.1, some fr.2)
  | none => acc

/-- The aggregated android result (locator.ts lines 76-129): one location
carrying every display name of every successful package and the composite
key of the last successful package, or nothing when no package produced
files. -/
def androidScan (pkgs : List PkgScan) : Option DatabaseLocation :=
  if (pkgs.foldl scanStep ([], none)).1 ≠ [] then
    some ⟨Platform.android, (pkgs.foldl scanStep ([], none)).1,
      (pkgs.foldl scanStep ([], none)).2⟩
  else none

/-- Concatenation of the per-package file lists, for stating what the fold
accumulates. -/
def allFiles (l : List (List String × String)) : List String :=
  (l.map Prod.fst).flatten

/-- Composite key of the last element, for stating what
lastSuccessfulAppDir ends up holding. -/
def lastKey : List (List String × String) → Option String
  | [] => none
  | fr :: rest =>
      match lastKey rest with
      | some k => some k
      | none => some fr.2

theorem scanFold_eq (pkgs : List PkgScan) :
    ∀ (files : List String) (ap : Option String),
      pkgs.foldl scanStep (files, ap) =
        (files ++ allFiles (pkgs.filterMap scanPkg),
          match lastKey (pkgs.filterMap scanPkg) with
          | some k => some k
          | none => ap) := by
  induction pkgs with
  | nil =>
    intro files ap
    simp [allFiles, lastKey]
  | cons p rest ih =>
    intro files ap
    cases hp : scanPkg p with
    | some fr =>
      simp only [List.foldl_cons, scanStep, hp, List.filterMap_cons, allFiles,
        List.map_cons, List.flatten_cons, lastKey]
      rw [ih (files ++ fr.1) (some fr.2)]
      cases hlk : lastKey (List.filterMap scanPkg rest) <;>
        simp [allFiles, List.append_assoc, hlk]
    | none =>
      simp only [List.foldl_cons, scanStep, hp, List.filterMap_cons]
      exact ih files ap

theorem matchKey_none (o : Option String) :
    (match o with
      | some k => some k
      | none => (none : Option String)) = o := by
  cases o <;> rfl

theorem scanRoot_key (pkg baseDir : String) (rl : RootListing)
    (fr : List String × String) (h : scanRoot pkg baseDir rl = some fr) :
    fr.2 = baseDir ++ "::" ++ pkg := by
  unfold scanRoot at h
  split at h
  · split at h
    · exact absurd h (by simp)
    · obtain rfl : _ = fr := Option.some.inj h
      rfl
  · exact absurd h (by simp)

/-- Claim C5, counterexample: two packages, each exposing one database
under its first root.  The aggregated location lists both display names —
with a duplicate, so no set semantics — while its single appDir carries
only the composite key of the second package, although the first listed
name was discovered under package p1 with key /data/user/0/p1::p1. -/
theorem C5_cex :
    androidScan
        [⟨"p1", ⟨true, ["/data/user/0/p1/databases/app.db"], []⟩, ⟨false, [], []⟩⟩,
          ⟨"p2", ⟨true, ["/data/user/0/p2/databases/app.db"], []⟩, ⟨false, [], []⟩⟩] =
      some ⟨Platform.android, ["databases/app.db", "databases/app.db"],
        some "/data/user/0/p2::p2"⟩ ∧
    scanPkg ⟨"p1", ⟨true, ["/data/user/0/p1/databases/app.db"], []⟩, ⟨false, [], []⟩⟩ =
      some (["databases/app.db"], "/data/user/0/p1::p1") ∧
    (["databases/app.db", "databases/app.db"] : List String).count "databases/app.db" = 2 := by
  exact ⟨by decide, by decide, by decide⟩

/-- Claim C5, amended: the aggregated android location concatenates the
per-package name lists (each de-duplicated within its root, but duplicates
across packages survive), and its appDir holds the composite
root-and-package key of the LAST package whose scan succeeded — not
necessarily the package in which each individual name was discovered;
every per-package key does have the root::package shape for one of the two
conventional roots of that same package. -/
theorem C5_scan :
    ∀ (pkgs : List PkgScan) (loc : DatabaseLocation) (p : PkgScan)
      (fr : List String × String),
      androidScan pkgs = some loc → scanPkg p = some fr →
        loc.databases = allFiles (pkgs.filterMap scanPkg) ∧
        loc.appDir = lastKey (pkgs.filterMap scanPkg) ∧
        (fr.2 = root0Dir p.pkg ++ "::" ++ p.pkg ∨
          fr.2 = root1Dir p.pkg ++ "::" ++ p.pkg) := by
  intro pkgs loc p fr hscan hp
  have hkey : fr.2 = root0Dir p.pkg ++ "::" ++ p.pkg ∨
      fr.2 = root1Dir p.pkg ++ "::" ++ p.pkg := by
    unfold scanPkg at hp
    cases h0 : scanRoot p.pkg (root0Dir p.pkg) p.root0 with
    | some r0 =>
      rw [h0] at hp
      obtain rfl : r0 = fr := Option.some.inj hp
      exact Or.inl (scanRoot_key _ _ _ _ h0)
    | none =>
      rw [h0] at hp
      exact Or.inr (scanRoot_key _ _ _ _ hp)
  unfold androidScan at hscan
  rw [scanFold_eq pkgs [] none] at hscan
  simp only [List.nil_append, matchKey_none] at hscan
  split at hscan
  · obtain rfl : _ = loc := Option.some.inj hscan
    exact ⟨rfl, rfl, hkey⟩
  · exact absurd hscan (by simp)

/-- Witness for C5_scan at the two-package counterexample input, viewed
through the amended statement. -/
theorem C5_scan_witness :
    (⟨Platform.android, ["databases/app.db", "databases/app.db"],
        some "/data/user/0/p2::p2"⟩ : DatabaseLocation).databases =
      allFiles
        (([⟨"p1", ⟨true, ["/data/user/0/p1/databases/app.db"], []⟩, ⟨false, [], []⟩⟩,
            ⟨"p2", ⟨true, ["/data/user/0/p2/databases/app.db"], []⟩,
              ⟨false, [], []⟩⟩] : List PkgScan).filterMap scanPkg) ∧
    (⟨Platform.android, ["databases/app.db", "databases/app.db"],
        some "/data/user/0/p2::p2"⟩ : DatabaseLocation).appDir =
      lastKey
        (([⟨"p1", ⟨true, ["/data/user/0/p1/databases/app.db"], []⟩, ⟨false, [], []⟩⟩,
            ⟨"p2", ⟨true, ["/data/user/0/p2/databases/app.db"], []⟩,
              ⟨false, [], []⟩⟩] : List PkgScan).filterMap scanPkg) ∧
    (((["databases/app.db"], "/data/user/0/p1::p1") : List String × String).2 =
        root0Dir "p1" ++ "::" ++ "p1" ∨
      ((["databases/app.db"], "/data/user/0/p1::p1") : List String × String).2 =
        root1Dir "p1" ++ "::" ++ "p1") :=
  C5_scan
    [⟨"p1", ⟨true, ["/data/user/0/p1/databases/app.db"], []⟩, ⟨false, [], []⟩⟩,
      ⟨"p2", ⟨true, ["/data/user/0/p2/databases/app.db"], []⟩, ⟨false, [], []⟩⟩]
    ⟨Platform.android, ["databases/app.db", "databases/app.db"],
      some "/data/user/0/p2::p2"⟩
    ⟨"p1", ⟨true, ["/data/user/0/p1/databases/app.db"], []⟩, ⟨false, [], []⟩⟩
    (["databases/app.db"], "/data/user/0/p1::p1")
    (by decide) (by decide)

/-- Claim C6, counterexample: a package whose first root answers the
privileged probe successfully but holds no database files, while the
second root holds one.  The claim says the first root is used and the
second skipped entirely; the code falls through and returns the second
root's file under the second root's composite key. -/
theorem C6_cex :
    (⟨true, [], []⟩ : RootListing).probeOk = true ∧
    scanRoot "p" (root0Dir "p") ⟨true, [], []⟩ = none ∧
    scanPkg ⟨"p", ⟨true, [], []⟩, ⟨true, ["/data/data/p/files/a.db"], []⟩⟩ =
      some (["files/a.db"], "/data/data/p::p") := by
  exact ⟨rfl, by decide, by decide⟩

/-- Claim C6, amended: for each package the two conventional roots are
tried in order, and the first root whose privileged listing succeeds AND
discovers at least one database is used, the other root then being skipped
(so results are never merged across roots); a first root whose probe
succeeds but which holds no database files falls through to the second
root. -/
theorem C6_roots :
    ∀ p : PkgScan,
      (∀ r0 : List String × String,
        scanRoot p.pkg (root0Dir p.pkg) p.root0 = some r0 → scanPkg p = some r0) ∧
      (scanRoot p.pkg (root0Dir p.pkg) p.root0 = none →
        scanPkg p = scanRoot p.pkg (root1Dir p.pkg) p.root1) := by
  intro p
  constructor
  · intro r0 h0
    unfold scanPkg
    rw [h0]
  · intro h0
    unfold scanPkg
    rw [h0]

/-- Witness for C6_roots: one package whose first root wins, one whose
first root fails the probe and whose second root answers. -/
theorem C6_roots_witness :
    (scanRoot "w" (root0Dir "w") ⟨true, ["/data/user/0/w/a.db"], []⟩ =
        some (["a.db"], "/data/user/0/w::w") ∧
      scanPkg ⟨"w", ⟨true, ["/data/user/0/w/a.db"], []⟩, ⟨false, [], []⟩⟩ =
        some (["a.db"], "/data/user/0/w::w")) ∧
    (scanRoot "v" (root0Dir "v") ⟨false, [], []⟩ = none ∧
      scanPkg ⟨"v", ⟨false, [], []⟩, ⟨true, ["/data/data/v/b.db"], []⟩⟩ =
        scanRoot "v" (root1Dir "v") ⟨true, ["/data/data/v/b.db"], []⟩) :=
  ⟨⟨by decide,
      (C6_roots ⟨"w", ⟨true, ["/data/user/0/w/a.db"], []⟩, ⟨false, [], []⟩⟩).1
        (["a.db"], "/data/user/0/w::w") (by decide)⟩,
    ⟨rfl,
      (C6_roots ⟨"v", ⟨false, [], []⟩, ⟨true, ["/data/data/v/b.db"], []⟩⟩).2 rfl⟩⟩

end RNSqlite
